import Mathlib

/-!
Shallow embedding of the agent core of the `jmp-MCP-server` repository
(`src/agent/core.ts`, `src/agent/state.ts`, `src/agent/orchestrator.ts`,
`src/tekton/updater.ts`) together with proofs about its decision loop,
state store and orchestration layer.

Modelling conventions:
* JavaScript numbers appearing in the agent (confidence values, impact
  scores) are modelled as exact rationals; every comparison performed by
  the code (`> 0.7`, `< 0.3`, …) is far from any double-rounding
  boundary, so the rational model agrees with IEEE doubles on all values
  the code can produce.
* A YAML document is modelled by its parsed shape: the list of
  `spec.params` names and `spec.results` names, which is exactly the
  part of the document the deterministic rules read and write.
* `undefined` / optional fields are modelled with `Option`; JavaScript
  truthiness of strings ("" is falsy) and booleans is modelled
  explicitly where the code relies on it.
-/

namespace JmpAgent

/-- `JumpstarterChange` from `src/types.ts`: the fields read by the agent
core (`title`, optional `description`, optional `impactAreas`, with an
absent `impactAreas` behaving exactly like an empty list under
`impactAreas?.includes`). -/
structure JumpstarterChange where
  id : String
  title : String
  description : Option String
  impactAreas : List String
  deriving Repr, DecidableEq

/-- A Tekton Task YAML document, modelled by its parsed shape: the names
occurring in `spec.params` and `spec.results`, which is the only part of
the document `applyDeterministicRules` inspects or modifies. -/
structure TaskDoc where
  params : List String
  results : List String
  deriving Repr, DecidableEq

/-- `DeterministicRuleResult` from `src/types.ts`; `yaml` holds the
serialized document when the rule changed something (we keep the parsed
document value). -/
structure DeterministicRuleResult where
  name : String
  changed : Bool
  notes : List String
  yaml : Option TaskDoc
  deriving Repr, DecidableEq

/-- Does the character list start with the given pattern? -/
def listStartsWith : List Char → List Char → Bool
  | [], _ => true
  | _ :: _, [] => false
  | p :: ps, c :: cs => (p == c) && listStartsWith ps cs

/-- Does the pattern occur as a contiguous run anywhere in the list? -/
def listHasRun (pat : List Char) : List Char → Bool
  | [] => listStartsWith pat []
  | c :: cs => listStartsWith pat (c :: cs) || listHasRun pat cs

/-- The characters of a string, lowercased (`String.toLower` maps
`Char.toLower` over the characters). -/
def lowerChars (s : String) : List Char :=
  s.data.map Char.toLower

/-- Case-insensitive substring test, modelling a `/pat/i` regex whose
pattern is a plain literal. -/
def strContainsCI (hay pat : String) : Bool :=
  listHasRun (lowerChars pat) (lowerChars hay)

/-- JavaScript `\s` on the whitespace characters relevant here. -/
def isJsWs (c : Char) : Bool :=
  c == ' ' || c == '\t' || c == '\n' || c == '\r' || c == '\x0c' || c == '\x0b'

/-- Match `secondary\s+network` at the head of an (already lowercased)
character list. -/
def secondaryNetworkAt (cs : List Char) : Bool :=
  listStartsWith "secondary".data cs &&
    (let rest := cs.drop 9
     let ws := rest.takeWhile isJsWs
     decide (0 < ws.length) && listStartsWith "network".data (rest.dropWhile isJsWs))

/-- Does `secondary\s+network` occur anywhere in the list? -/
def secondaryNetworkIn : List Char → Bool
  | [] => false
  | c :: cs => secondaryNetworkAt (c :: cs) || secondaryNetworkIn cs

/-- The regex `/secondary\s+network|multus|nad/i` of rule 1 in
`src/tekton/updater.ts`. -/
def mentionsSecondaryNetwork (s : String) : Bool :=
  secondaryNetworkIn (lowerChars s) || strContainsCI s "multus" || strContainsCI s "nad"

/-- The regex `/artifact|result|export/i` of rule 2. -/
def mentionsArtifacts (s : String) : Bool :=
  strContainsCI s "artifact" || strContainsCI s "result" || strContainsCI s "export"

/-- The regex `/quay\.io|quay/i` of rule 3 (the second alternative
subsumes the first). -/
def mentionsQuay (s : String) : Bool :=
  strContainsCI s "quay.io" || strContainsCI s "quay"

/-- `[c.title, c.description].join(" ")`: an `undefined` description
joins as the empty string. -/
def changeText (c : JumpstarterChange) : String :=
  c.title ++ " " ++ c.description.getD ""

/-- One pattern-match-and-insert rule of `applyDeterministicRules`: if
the trigger fires, ensure the named entry exists in the selected list of
the document, reporting whether anything changed.  Returns the updated
document and the produced `DeterministicRuleResult`s (empty when the
trigger does not fire, matching the source, which pushes no result in
that case). -/
def runInsertRule (ruleName entry addedNote presentNote : String)
    (trigger : Bool) (get : TaskDoc → List String)
    (set : TaskDoc → List String → TaskDoc) (doc : TaskDoc) :
    TaskDoc × List DeterministicRuleResult :=
  if trigger then
    if (get doc).contains entry then
      (doc, [⟨ruleName, false, [presentNote], none⟩])
    else
      let d := set doc (get doc ++ [entry])
      (d, [⟨ruleName, true, [addedNote], some d⟩])
  else
    (doc, [])

/-- `applyDeterministicRules` from `src/tekton/updater.ts`: three rules
run in order over the same (mutated in place) document object. -/
def applyDeterministicRules (doc : TaskDoc) (changes : List JumpstarterChange) :
    List DeterministicRuleResult :=
  let r1 := runInsertRule "ensure-secondary-network-param" "secondaryNetworkNAD"
    "Added param secondaryNetworkNAD" "Param already present"
    (changes.any fun c => mentionsSecondaryNetwork (changeText c))
    (fun d => d.params) (fun d l => { d with params := l }) doc
  let r2 := runInsertRule "ensure-results-for-artifacts" "artifactDigest"
    "Added result artifactDigest" "Result already present"
    (changes.any fun c => mentionsArtifacts (changeText c))
    (fun d => d.results) (fun d l => { d with results := l }) r1.1
  let r3 := runInsertRule "ensure-quay-url-param" "quayUrl"
    "Added param quayUrl" "Param already present"
    (changes.any fun c => mentionsQuay (changeText c))
    (fun d => d.params) (fun d l => { d with params := l }) r2.1
  r1.2 ++ r2.2 ++ r3.2

/-- `AgentDecision` from `src/agent/types.ts` (the open `metadata` map is
not modelled; no verified property reads it). -/
structure AgentDecision where
  action : String
  reasoning : String
  confidence : ℚ
  final : Bool
  deriving Repr, DecidableEq

/-- The untyped `result: any` objects produced by `AgentCore.execute`,
restricted to the fields the agent ever reads back: `success`, `error`,
`skipped`/`reason` (skip path), `updatedYaml` and `notes`.  Absent
fields are `none` / `false` / `[]`. -/
structure ExecResult where
  success : Option Bool
  error : Option String
  skipped : Bool
  reason : Option String
  updatedYaml : Option TaskDoc
  notes : List String
  deriving Repr, DecidableEq

/-- `{ error: message }`, the shape produced by the `catch` in
`AgentCore.execute` and by its missing-data early returns. -/
def ExecResult.err (m : String) : ExecResult :=
  ⟨none, some m, false, none, none, []⟩

/-- JavaScript truthiness of an optional string: `undefined` and `""`
are falsy. -/
def jsTruthyStr : Option String → Bool
  | none => false
  | some s => !s.isEmpty

/-- JavaScript truthiness of an optional boolean: only `true` is truthy. -/
def jsTruthyBool : Option Bool → Bool
  | some b => b
  | none => false

/-- `AgentMemory` from `src/agent/types.ts`. -/
structure AgentMemory where
  timestamp : String
  decision : AgentDecision
  result : ExecResult
  success : Bool
  deriving Repr, DecidableEq

/-- The `stats` record of `AgentState`. -/
structure AgentStats where
  totalTasks : Nat
  successfulTasks : Nat
  failedTasks : Nat
  lastRunTime : Option String
  deriving Repr, DecidableEq

/-- `AgentState` from `src/agent/types.ts`: the JavaScript `Map` used
for `taskHistory` is modelled as an insertion-ordered association list
with (in every state the code builds) pairwise-distinct keys. -/
structure AgentState where
  memories : List AgentMemory
  taskHistory : List (String × List AgentMemory)
  stats : AgentStats
  deriving Repr, DecidableEq

/-- The empty state built by the `StateManager` constructor. -/
def freshState : AgentState :=
  ⟨[], [], ⟨0, 0, 0, none⟩⟩

/-- `Map.get`: the value stored at the first (only) entry with this key. -/
def mapGet (m : List (String × α)) (k : String) : Option α :=
  (m.find? fun p => p.1 == k).map fun p => p.2

/-- `Map.set`: overwrite the entry in place if the key is present,
otherwise append a fresh entry at the end (JavaScript `Map` insertion
order). -/
def mapSet (m : List (String × α)) (k : String) (v : α) : List (String × α) :=
  if (m.find? fun p => p.1 == k).isSome then
    m.map fun p => if p.1 == k then (k, v) else p
  else
    m ++ [(k, v)]

/-- `this.config.maxMemories || 100` in `StateManager.addMemory`: an
absent configuration value and the falsy `0` both fall back to 100. -/
def resolveMaxMemories : Option Nat → Nat
  | none => 100
  | some 0 => 100
  | some (n + 1) => n + 1

/-- `StateManager.addMemory` acting on the `memories` list: push, then
keep only the last `maxMemories` entries (`slice(-maxMemories)`) when
the cap is exceeded. -/
def addMemory (cfg : Option Nat) (ms : List AgentMemory) (m : AgentMemory) :
    List AgentMemory :=
  let pushed := ms ++ [m]
  let maxM := resolveMaxMemories cfg
  if maxM < pushed.length then pushed.drop (pushed.length - maxM) else pushed

/-- `StateManager.getRecentMemories`: `memories.slice(-count)` (for
`count = 0`, `slice(-0)` is `slice(0)`, the whole array). -/
def getRecentMemories (s : AgentState) (count : Nat) : List AgentMemory :=
  if count == 0 then s.memories else s.memories.drop (s.memories.length - count)

/-- `StateManager.getTaskHistory`: `this.state.taskHistory.get(taskId) || []`. -/
def getTaskHistory (s : AgentState) (taskId : String) : List AgentMemory :=
  (mapGet s.taskHistory taskId).getD []

/-- `StateManager.addTaskHistory`: ensure the entry exists, push the
record, then update `stats` (`totalTasks := taskHistory.size`, one of
the success/failure counters, `lastRunTime`). -/
def addTaskHistory (s : AgentState) (taskId : String) (m : AgentMemory) :
    AgentState :=
  let glued := mapSet s.taskHistory taskId (getTaskHistory s taskId ++ [m])
  { s with
    taskHistory := glued
    stats :=
      { totalTasks := glued.length
        successfulTasks := s.stats.successfulTasks + (if m.success then 1 else 0)
        failedTasks := s.stats.failedTasks + (if m.success then 0 else 1)
        lastRunTime := some m.timestamp } }

/-- The serialized form written by `StateManager.save`: `memories` and
`stats` pass through `JSON.stringify`/`JSON.parse` unchanged (they are
plain data), and `taskHistory` becomes a plain object via
`Object.fromEntries`, modelled as an ordered key/value list. -/
structure StoredState where
  memories : List AgentMemory
  taskHistory : List (String × List AgentMemory)
  stats : AgentStats
  deriving Repr, DecidableEq

/-- Building a JavaScript object (or `Map`) from an entry list: a
repeated key overwrites the stored value in place, a new key appends.
`Object.fromEntries` and the `Map` constructor share this semantics. -/
def jsFromEntries (l : List (String × α)) : List (String × α) :=
  l.foldl (fun acc p => mapSet acc p.1 p.2) []

/-- `StateManager.save` viewed as a pure serialization:
`{...state, taskHistory: Object.fromEntries(taskHistory)}`. -/
def saveState (s : AgentState) : StoredState :=
  ⟨s.memories, jsFromEntries s.taskHistory, s.stats⟩

/-- `StateManager.load` viewed as a pure deserialization of a stored
document: `{...parsed, taskHistory: new Map(Object.entries(parsed.taskHistory))}`. -/
def loadState (d : StoredState) : AgentState :=
  ⟨d.memories, jsFromEntries d.taskHistory, d.stats⟩

/-- The `data` payload of an `AgentTask`, restricted to the fields the
decision engine reads (`changes`, `taskYaml`); a `taskYaml` of `none`
covers both an absent and an empty (falsy) document string. -/
structure AgentTaskData where
  changes : Option (List JumpstarterChange)
  taskYaml : Option TaskDoc
  deriving Repr, DecidableEq

/-- `AgentTask` from `src/agent/types.ts`; `type` stays a string so that
the unknown-task-kind dispatch branch of `AgentCore.reason` is kept. -/
structure AgentTask where
  id : String
  type : String
  data : AgentTaskData
  deriving Repr, DecidableEq

/-- `AgentCore.reasonUpdateTask`: missing data yields a terminal skip;
more than 3 previous attempts yield the terminal
human-intervention skip; otherwise the decision is between
`apply-rules-only` and `propose-with-llm`, with `needsLLM` true when no
rule changed anything or some change has a description longer than 100
characters, and confidence 0.8 exactly when some rule changed
something. -/
def reasonUpdateTask (previousAttempts : List AgentMemory) (task : AgentTask) :
    AgentDecision :=
  match task.data.taskYaml, task.data.changes with
  | some doc, some changes =>
    let rules := applyDeterministicRules doc changes
    let hasRuleChanges := rules.any fun r => r.changed
    if 3 < previousAttempts.length then
      ⟨"skip", "Too many failed attempts, human intervention needed", 1, true⟩
    else
      let needsLLM := !hasRuleChanges ||
        changes.any fun c => 100 < (c.description.getD "").length
      ⟨if needsLLM then "propose-with-llm" else "apply-rules-only",
       if needsLLM then "Changes are complex, using LLM for sophisticated analysis"
       else "Simple changes detected, applying deterministic rules",
       if hasRuleChanges then 8/10 else 5/10,
       false⟩
  | _, _ =>
    ⟨"skip", "Missing required data (taskYaml or changes)", 1, true⟩

/-- `AgentCore.reasonMonitorChanges`. -/
def reasonMonitorChanges (_task : AgentTask) : AgentDecision :=
  ⟨"check-changes", "Monitoring for new Jumpstarter changes", 1, false⟩

/-- The body of the `changes.forEach` accumulation inside
`AgentCore.calculateImpactScore`: fixed weights per flagged impact area
(serviceAccount 0.3, security 0.4, network 0.2) plus 0.2 for a
description longer than 200 characters. -/
def impactStep (s : ℚ) (c : JumpstarterChange) : ℚ :=
  let s := if c.impactAreas.contains "serviceAccount" then s + 3/10 else s
  let s := if c.impactAreas.contains "security" then s + 4/10 else s
  let s := if c.impactAreas.contains "network" then s + 2/10 else s
  if 200 < (c.description.getD "").length then s + 2/10 else s

/-- `AgentCore.calculateImpactScore`: the per-change weights summed over
all changes and clamped to 1 (`Math.min(score, 1.0)`); an absent change
list scores 0.  The unused `taskYaml` parameter of the source is kept. -/
def calculateImpactScore (changes : Option (List JumpstarterChange))
    (_taskYaml : String) : ℚ :=
  match changes with
  | none => 0
  | some cs => min (cs.foldl impactStep 0) 1

/-- `AgentCore.reasonAnalyzeImpact` (the numeric formatting inside the
reasoning string is abstracted to the branch text). -/
def reasonAnalyzeImpact (task : AgentTask) : AgentDecision :=
  let impactScore := calculateImpactScore task.data.changes ""
  ⟨if 7/10 < impactScore then "high-impact-review" else "auto-apply",
   if 7/10 < impactScore then "High impact detected, requesting review"
   else "Low impact, safe to auto-apply",
   9/10, false⟩

/-- `AgentCore.reason`: dispatch on the task type string; the
`previousAttempts` read from the observation are the task history for
this task id. -/
def reason (s : AgentState) (task : AgentTask) : AgentDecision :=
  if task.type == "update-task" then
    reasonUpdateTask (getTaskHistory s task.id) task
  else if task.type == "monitor-changes" then
    reasonMonitorChanges task
  else if task.type == "analyze-impact" then
    reasonAnalyzeImpact task
  else
    ⟨"skip", "Unknown task type", 0, true⟩

/-- `Proposal` from `src/types.ts`; an `updatedTaskYAML` of `none`
covers an empty (falsy) proposal text. -/
structure Proposal where
  notes : List String
  updatedTaskYAML : Option TaskDoc
  deriving Repr, DecidableEq

/-- The external collaborators invoked by `AgentCore.execute`, each of
which may throw: the generative proposer (`proposeWithLLM`) and the
document validator (`validateTaskYaml`).  `applyDeterministicRules` and
`mergeYAMLs` are embedded directly (on a parsed document they perform no
throwing operation). -/
structure Collabs where
  propose : TaskDoc → List JumpstarterChange → Except String Proposal
  validate : TaskDoc → Except String Unit

/-- `mergeYAMLs` from `src/tekton/updater.ts`: `preferred || fallback`. -/
def mergeYAMLs (preferred : Option TaskDoc) (fallback : TaskDoc) : TaskDoc :=
  preferred.getD fallback

/-- `rules.reverse().find(r => r.yaml)?.yaml || taskYaml`: the last rule
output that produced a document, else the original document. -/
def latestRuleYaml (rules : List DeterministicRuleResult) (doc : TaskDoc) : TaskDoc :=
  (((rules.reverse.find? fun r => r.yaml.isSome).bind fun r => r.yaml).getD doc)

/-- `AgentCore.executeProposeWithLLM`, inside the surrounding
`try`: apply deterministic rules, take the latest produced document,
obtain the proposal, merge, validate.  The in-place
`rules.reverse()` of the source also reverses the order of the collected notes. -/
def executeProposeWithLLM (C : Collabs) (task : AgentTask) :
    Except String ExecResult :=
  match task.data.taskYaml, task.data.changes with
  | some doc, some changes => do
    let rulesRev := (applyDeterministicRules doc changes).reverse
    let latest := latestRuleYaml (applyDeterministicRules doc changes) doc
    let proposal ← C.propose latest changes
    let merged := mergeYAMLs proposal.updatedTaskYAML latest
    let _ ← C.validate merged
    pure ⟨some true, none, false, none, some merged,
      (rulesRev.flatMap fun r => r.notes) ++ proposal.notes⟩
  | _, _ => pure (ExecResult.err "Missing taskYaml or changes")

/-- `AgentCore.executeApplyRules`, inside the surrounding `try`. -/
def executeApplyRules (C : Collabs) (task : AgentTask) :
    Except String ExecResult :=
  match task.data.taskYaml, task.data.changes with
  | some doc, some changes => do
    let rulesRev := (applyDeterministicRules doc changes).reverse
    let updated := latestRuleYaml (applyDeterministicRules doc changes) doc
    let _ ← C.validate updated
    pure ⟨some true, none, false, none, some updated,
      rulesRev.flatMap fun r => r.notes⟩
  | _, _ => pure (ExecResult.err "Missing taskYaml or changes")

/-- The body of the `switch` inside `AgentCore.execute`, in the `Except`
monad: a collaborator throw is an `Except.error`. -/
def executeExc (C : Collabs) (decision : AgentDecision) (task : AgentTask) :
    Except String ExecResult :=
  if decision.action == "propose-with-llm" then
    executeProposeWithLLM C task
  else if decision.action == "apply-rules-only" then
    executeApplyRules C task
  else if decision.action == "check-changes" then
    pure ⟨some true, none, false, none, none, []⟩
  else if decision.action == "high-impact-review" then
    pure ⟨some true, none, false, none, none, []⟩
  else if decision.action == "auto-apply" then
    executeProposeWithLLM C task
  else if decision.action == "skip" then
    pure ⟨none, none, true, some decision.reasoning, none, []⟩
  else
    pure (ExecResult.err ("Unknown action: " ++ decision.action))

/-- `AgentCore.execute`: the whole switch sits in a `try`/`catch` whose
handler returns `{ error: error.message }`; by construction no
exception can propagate out. -/
def execute (C : Collabs) (decision : AgentDecision) (task : AgentTask) :
    ExecResult :=
  match executeExc C decision task with
  | .ok r => r
  | .error m => ExecResult.err m

/-- The memory record built in `AgentCore.updateState`:
`success: !result.error` under string truthiness. -/
def mkMemory (timestamp : String) (decision : AgentDecision) (result : ExecResult) :
    AgentMemory :=
  ⟨timestamp, decision, result, !jsTruthyStr result.error⟩

/-- `AgentCore.updateState`: wrap decision and result into a memory,
`addMemory` it, and `save` (which does not change the in-memory state). -/
def updateState (cfg : Option Nat) (s : AgentState) (timestamp : String)
    (decision : AgentDecision) (result : ExecResult) : AgentState :=
  { s with memories := addMemory cfg s.memories (mkMemory timestamp decision result) }

/-- `AgentCore.isTaskComplete`: `history.some(h => h.result?.success)`
(note: the success flag of the result, not of the record). -/
def isTaskComplete (s : AgentState) (taskId : String) : Bool :=
  (getTaskHistory s taskId).any fun h => jsTruthyBool h.result.success

/-- The loop state of `AgentCore.run`: the shared agent state plus the
`running` flag. -/
structure LoopState where
  agent : AgentState
  running : Bool
  deriving Repr, DecidableEq

/-- One pass of the `while` in `AgentCore.run`: if the guard
`running && !isTaskComplete(task)` holds, observe, reason, execute,
update, and clear `running` when the decision is final or the `error`
of the result is truthy; otherwise the loop has exited and nothing changes. -/
def loopStep (C : Collabs) (cfg : Option Nat) (timestamp : String)
    (task : AgentTask) (ls : LoopState) : LoopState :=
  if ls.running && !isTaskComplete ls.agent task.id then
    let decision := reason ls.agent task
    let result := execute C decision task
    let agent := updateState cfg ls.agent timestamp decision result
    ⟨agent, !(decision.final || jsTruthyStr result.error)⟩
  else ls

/-- `n` passes of the `AgentCore.run` while-loop. -/
def runIters (C : Collabs) (cfg : Option Nat) (timestamp : String)
    (task : AgentTask) : Nat → LoopState → LoopState
  | 0, ls => ls
  | n + 1, ls => runIters C cfg timestamp task n (loopStep C cfg timestamp task ls)

/-- A whole `AgentCore.run` call on a task whose loop exits within the
given number of passes (extra passes stall once `running` is false). -/
def runOnce (C : Collabs) (cfg : Option Nat) (timestamp : String)
    (task : AgentTask) (fuel : Nat) (s : AgentState) : AgentState :=
  (runIters C cfg timestamp task fuel ⟨s, true⟩).agent

/-- `this.config.maxRetries || 3` in `AgentOrchestrator.executeTask`. -/
def resolveMaxRetries : Option Nat → Nat
  | none => 3
  | some 0 => 3
  | some (n + 1) => n + 1

/-- The orchestrator retry loop (`AgentOrchestrator.start` +
`executeTask`) specialised to a queue of tasks whose `agent.run` always
throws: each dequeued entry `(id, _retries)` computes
`retries = _retries + 1` and is re-enqueued at the tail with the
incremented count while `retries < maxRetries`, else dropped.  Returns
(number of executions, number of re-enqueues). -/
def drainFailing (maxRetries : Nat) : List (String × Nat) → Nat × Nat
  | [] => (0, 0)
  | t :: q =>
    if t.2 + 1 < maxRetries then
      let rest := drainFailing maxRetries (q ++ [(t.1, t.2 + 1)])
      (rest.1 + 1, rest.2 + 1)
    else
      let rest := drainFailing maxRetries q
      (rest.1 + 1, rest.2)
  termination_by q => (q.map fun t => maxRetries - t.2).sum + q.length
  decreasing_by
    all_goals simp_all [List.map_append, List.sum_append]
    all_goals omega

/-! ### Concrete scenario data -/

/-- A change whose text triggers no deterministic rule and whose
description is short. -/
def simpleChange : JumpstarterChange := ⟨"c1", "hello", some "short", []⟩

/-- A change that triggers the secondary-network rule. -/
def multusChange : JumpstarterChange := ⟨"c2", "add multus support", some "short", []⟩

/-- A task document with no params and no results. -/
def emptyDoc : TaskDoc := ⟨[], []⟩

/-- A short-description change flagged only with the `network` impact
area. -/
def netChange1 : JumpstarterChange := ⟨"n1", "alpha", some "brief", ["network"]⟩

/-- A second short-description change flagged only with the `network`
impact area. -/
def netChange2 : JumpstarterChange := ⟨"n2", "beta", some "brief", ["network"]⟩

/-- An `update-task` with a document and a (rule-free, short) change. -/
def updTask : AgentTask := ⟨"task-1", "update-task", ⟨some [simpleChange], some emptyDoc⟩⟩

/-- An `update-task` whose change set triggers a deterministic rule. -/
def multusTask : AgentTask := ⟨"task-2", "update-task", ⟨some [multusChange], some emptyDoc⟩⟩

/-- A `monitor-changes` task. -/
def monitorTask : AgentTask := ⟨"monitor-1", "monitor-changes", ⟨none, none⟩⟩

/-- Collaborators whose generative proposer always throws (an LLM call
failure), as happens on every run without a reachable backend. -/
def failCollabs : Collabs :=
  ⟨fun _ _ => .error "LLM call failed: 500", fun _ => .ok ()⟩

/-- Collaborators that succeed: the proposer is the offline no-op
passthrough and validation accepts. -/
def okCollabs : Collabs :=
  ⟨fun doc _ => .ok ⟨["OPENAI_API_KEY not set; returning original YAML"], some doc⟩,
   fun _ => .ok ()⟩

/-- The agent state after four complete `run` calls on `updTask`, each
of which fails at the proposer (two loop passes are enough: the first
pass errors and clears `running`, the second stalls). -/
def stateAfterFourFailedRuns : AgentState :=
  runOnce failCollabs none "t4" updTask 2
    (runOnce failCollabs none "t3" updTask 2
      (runOnce failCollabs none "t2" updTask 2
        (runOnce failCollabs none "t1" updTask 2 freshState)))

/-- The run loop on this task never exits: every pass leaves `running`
set. -/
def runLoopNeverExits (C : Collabs) (cfg : Option Nat) (ts : String)
    (t : AgentTask) (ls : LoopState) : Prop :=
  ∀ n, (runIters C cfg ts t n ls).running = true

/-- A memory record produced by one failed `update-task` attempt (the
proposer threw). -/
def failedAttemptMem : AgentMemory :=
  mkMemory "t1" (reason freshState updTask)
    (execute failCollabs (reason freshState updTask) updTask)

/-- The result object of a missing-data skip (`{skipped, reason}`: no
`success` field, no `error` field). -/
def skipResult : ExecResult :=
  ⟨none, none, true, some "Missing required data (taskYaml or changes)", none, []⟩

/-- The memory record `updateState` builds for such a skip: `success`
is `!result.error`, hence `true`. -/
def skipMem : AgentMemory :=
  ⟨"t0", ⟨"skip", "Missing required data (taskYaml or changes)", 1, true⟩,
    skipResult, true⟩

/-- A state whose task `t1` has exactly one history record: a successful
skip. -/
def skipOnlyState : AgentState :=
  ⟨[], [("t1", [skipMem])], ⟨1, 1, 0, some "t0"⟩⟩

/-- A successful execution result and its memory record. -/
def okResult : ExecResult := ⟨some true, none, false, none, none, []⟩

/-- A memory record for a successful rules-only execution. -/
def okMem : AgentMemory :=
  ⟨"t1", ⟨"apply-rules-only", "ok", 1, false⟩, okResult, true⟩

/-- A state whose task `t1` is complete. -/
def completeState : AgentState :=
  ⟨[], [("t1", [okMem])], ⟨1, 1, 0, some "t1"⟩⟩

/-- Collaborators whose validator always throws. -/
def boomCollabs : Collabs :=
  ⟨fun doc _ => .ok ⟨[], some doc⟩, fun _ => .error "boom"⟩

/-- A concrete generative-proposal decision. -/
def proposeDecision : AgentDecision := ⟨"propose-with-llm", "r", 1, false⟩

/-- A concrete serializable state with two task-history entries. -/
def roundTripState : AgentState :=
  ⟨[okMem], [("a", [okMem]), ("b", [])], ⟨2, 1, 1, none⟩⟩

/-! ### Helper lemmas -/

/-- `addMemory` always equals "append, then keep the last `maxMemories`
elements" (when the cap is not exceeded the dropped prefix is empty). -/
theorem addMemory_eq_drop (cfg : Option Nat) (ms : List AgentMemory) (m : AgentMemory) :
    addMemory cfg ms m =
      (ms ++ [m]).drop ((ms ++ [m]).length - resolveMaxMemories cfg) := by
  simp only [addMemory]
  split
  · rfl
  · next h =>
    rw [Nat.sub_eq_zero_of_le (by omega), List.drop_zero]

/-- Folding `addMemory` from any short-enough state keeps exactly the
most recent `maxMemories` of all records ever present, in order. -/
theorem foldl_addMemory (cfg : Option Nat) :
    ∀ (L s : List AgentMemory), s.length ≤ resolveMaxMemories cfg →
      L.foldl (addMemory cfg) s =
        (s ++ L).drop (s.length + L.length - resolveMaxMemories cfg)
  | [], s, h => by
    simp [Nat.sub_eq_zero_of_le h]
  | m :: L, s, h => by
    set cap := resolveMaxMemories cfg with hcap
    have hstep : addMemory cfg s m = (s ++ [m]).drop (s.length + 1 - cap) := by
      rw [addMemory_eq_drop]
      simp [hcap]
    have hlen : (addMemory cfg s m).length ≤ cap := by
      rw [hstep, List.length_drop]
      simp only [List.length_append, List.length_cons, List.length_nil]
      omega
    rw [List.foldl_cons, foldl_addMemory cfg L (addMemory cfg s m) hlen, hstep]
    have harr : s ++ m :: L = (s ++ [m]) ++ L := by simp
    rw [harr]
    rw [← List.drop_append_of_le_length
      (show s.length + 1 - cap ≤ (s ++ [m]).length by
        simp only [List.length_append, List.length_cons, List.length_nil]; omega)]
    rw [List.drop_drop]
    congr 1
    simp only [List.length_drop, List.length_append, List.length_cons, List.length_nil]
    omega

/-- Reading a key just written returns the written value. -/
theorem mapGet_set_self (l : List (String × α)) (k : String) (v : α) :
    mapGet (mapSet l k v) k = some v := by
  unfold mapSet
  split
  · next hfound =>
    induction l with
    | nil => simp [mapGet] at hfound
    | cons p ps ih =>
      by_cases hk : p.1 = k
      · simp [mapGet, List.find?_cons, hk]
      · have hne : (p.1 == k) = false := by simp [hk]
        simp only [List.map_cons, hne, if_neg, Bool.false_eq_true, not_false_eq_true]
        simp only [mapGet, List.find?_cons, hne] at *
        exact ih (by simpa [List.find?_cons, hne] using hfound)
  · next hfound =>
    induction l with
    | nil => simp [mapGet]
    | cons p ps ih =>
      have hne : (p.1 == k) = false := by
        by_contra hc
        simp only [Bool.not_eq_false, beq_iff_eq] at hc
        simp [List.find?_cons, hc] at hfound
      simp only [List.cons_append, mapGet, List.find?_cons, hne] at *
      exact ih hfound

/-- `mapGet` on a cons: test the head, else look in the tail. -/
theorem mapGet_cons (p : String × α) (ps : List (String × α)) (k : String) :
    mapGet (p :: ps) k = if p.1 == k then some p.2 else mapGet ps k := by
  cases hpk : (p.1 == k) <;> simp [mapGet, List.find?_cons, hpk]

/-- `mapGet` over an append: the left list wins. -/
theorem mapGet_append (l₁ l₂ : List (String × α)) (k : String) :
    mapGet (l₁ ++ l₂) k = (mapGet l₁ k).or (mapGet l₂ k) := by
  simp only [mapGet, List.find?_append]
  cases l₁.find? fun p => p.1 == k <;> simp

/-- Overwriting the entries keyed `k` does not disturb lookups at a
different key. -/
theorem mapGet_map_overwrite (k k' : String) (v : α) (h : ¬k = k') :
    ∀ l : List (String × α),
      mapGet (l.map fun p => if p.1 == k then (k, v) else p) k' = mapGet l k'
  | [] => rfl
  | p :: ps => by
    by_cases hk : (p.1 == k) = true
    · rw [List.map_cons, if_pos hk, mapGet_cons, mapGet_cons,
        mapGet_map_overwrite k k' v h ps]
      have h1 : (k == k') = false := beq_eq_false_iff_ne.mpr h
      have hp : p.1 = k := by simpa using hk
      have h2 : (p.1 == k') = false := by rw [hp]; exact h1
      simp [h1, h2]
    · rw [List.map_cons, if_neg hk, mapGet_cons, mapGet_cons,
        mapGet_map_overwrite k k' v h ps]

/-- Writing one key leaves every other key unchanged. -/
theorem mapGet_set_ne (l : List (String × α)) (k k' : String) (v : α)
    (h : k' ≠ k) : mapGet (mapSet l k v) k' = mapGet l k' := by
  unfold mapSet
  split
  · exact mapGet_map_overwrite k k' v (Ne.symm h) l
  · rw [mapGet_append]
    have h1 : (k == k') = false := beq_eq_false_iff_ne.mpr (Ne.symm h)
    simp [mapGet_cons, h1, mapGet]

/-- Appending a record extends exactly the history of that task id. -/
theorem getTaskHistory_add_self (s : AgentState) (id : String) (m : AgentMemory) :
    getTaskHistory (addTaskHistory s id m) id = getTaskHistory s id ++ [m] := by
  unfold getTaskHistory addTaskHistory
  simp [mapGet_set_self]
  rfl

/-- Appending a record leaves the history of any other task id
unchanged. -/
theorem getTaskHistory_add_of_ne (s : AgentState) (id id' : String)
    (m : AgentMemory) (h : id' ≠ id) :
    getTaskHistory (addTaskHistory s id m) id' = getTaskHistory s id' := by
  unfold getTaskHistory addTaskHistory
  simp [mapGet_set_ne _ _ _ _ h]

/-- A left-accumulated `jsFromEntries` pass over entries whose keys are
fresh for the accumulator and pairwise distinct only appends. -/
theorem jsFromEntries_go (l acc : List (String × α))
    (hnodup : (l.map Prod.fst).Nodup)
    (hfresh : ∀ p ∈ l, mapGet acc p.1 = none) :
    l.foldl (fun a p => mapSet a p.1 p.2) acc = acc ++ l := by
  induction l generalizing acc with
  | nil => simp
  | cons p ps ih =>
    have hcons := List.nodup_cons.mp
      (show (p.1 :: ps.map Prod.fst).Nodup by simpa only [List.map_cons] using hnodup)
    have hset : mapSet acc p.1 p.2 = acc ++ [p] := by
      unfold mapSet
      have hg : mapGet acc p.1 = none := hfresh p (by simp)
      have hnone : (acc.find? fun q => q.1 == p.1) = none := by
        unfold mapGet at hg
        rcases hq : acc.find? fun q => q.1 == p.1 with _ | q
        · exact hq
        · rw [hq] at hg
          simp at hg
      rw [if_neg (by simp [hnone])]
    have hfresh2 : ∀ q ∈ ps, mapGet (acc ++ [p]) q.1 = none := by
      intro q hq2
      rw [mapGet_append]
      have hql : mapGet acc q.1 = none := hfresh q (List.mem_cons_of_mem _ hq2)
      have hne : (p.1 == q.1) = false :=
        beq_eq_false_iff_ne.mpr fun he => hcons.1 (List.mem_map.mpr ⟨q, hq2, he.symm⟩)
      rw [hql, mapGet_cons, hne]
      simp [mapGet]
    rw [List.foldl_cons, hset, ih (acc ++ [p]) hcons.2 hfresh2]
    simp

/-- On an entry list with pairwise-distinct keys — the shape every
serialized `Map` has — `jsFromEntries` is the identity. -/
theorem jsFromEntries_id (l : List (String × α))
    (hnodup : (l.map Prod.fst).Nodup) : jsFromEntries l = l := by
  unfold jsFromEntries
  rw [jsFromEntries_go l [] hnodup (by intro p _; rfl)]
  simp

/-- `updateState` does not touch the task-history mapping. -/
theorem updateState_taskHistory (cfg : Option Nat) (s : AgentState) (ts : String)
    (d : AgentDecision) (r : ExecResult) :
    (updateState cfg s ts d r).taskHistory = s.taskHistory := rfl

/-- `updateState` does not touch the stats counters. -/
theorem updateState_stats (cfg : Option Nat) (s : AgentState) (ts : String)
    (d : AgentDecision) (r : ExecResult) :
    (updateState cfg s ts d r).stats = s.stats := rfl

/-- A single pass of the run loop never changes task history or stats. -/
theorem loopStep_frame (C : Collabs) (cfg : Option Nat) (ts : String)
    (t : AgentTask) (ls : LoopState) :
    (loopStep C cfg ts t ls).agent.taskHistory = ls.agent.taskHistory ∧
      (loopStep C cfg ts t ls).agent.stats = ls.agent.stats := by
  unfold loopStep
  split <;> exact ⟨rfl, rfl⟩

/-- Any number of passes of the run loop never changes task history or
stats. -/
theorem runIters_frame (C : Collabs) (cfg : Option Nat) (ts : String)
    (t : AgentTask) :
    ∀ (n : Nat) (ls : LoopState),
      (runIters C cfg ts t n ls).agent.taskHistory = ls.agent.taskHistory ∧
        (runIters C cfg ts t n ls).agent.stats = ls.agent.stats
  | 0, ls => ⟨rfl, rfl⟩
  | n + 1, ls => by
    have h1 := loopStep_frame C cfg ts t ls
    have h2 := runIters_frame C cfg ts t n (loopStep C cfg ts t ls)
    unfold runIters
    exact ⟨h2.1.trans h1.1, h2.2.trans h1.2⟩

/-- On a `monitor-changes` task a loop pass keeps `running` set (the
decision is non-final, the execution result has no error, and the task
history — which `updateState` never touches — stays empty, so the task
never counts as complete). -/
theorem loopStep_monitor_invariant (C : Collabs) (cfg : Option Nat) (ts : String)
    (ls : LoopState) (hr : ls.running = true) (hh : ls.agent.taskHistory = []) :
    (loopStep C cfg ts monitorTask ls).running = true ∧
      (loopStep C cfg ts monitorTask ls).agent.taskHistory = [] := by
  have hguard : isTaskComplete ls.agent monitorTask.id = false := by
    show isTaskComplete ls.agent "monitor-1" = false
    unfold isTaskComplete getTaskHistory
    rw [hh]
    rfl
  have hexec : execute C (reason ls.agent monitorTask) monitorTask =
      ⟨some true, none, false, none, none, []⟩ := rfl
  have hreason : reason ls.agent monitorTask =
      ⟨"check-changes", "Monitoring for new Jumpstarter changes", 1, false⟩ := rfl
  simp only [loopStep]
  rw [hr, hguard, hexec, hreason]
  simp [jsTruthyStr, updateState_taskHistory, hh]

/-- Iterating the loop on `monitorTask` from a running state with empty
task history leaves `running` set after any number of passes. -/
theorem runIters_monitor (C : Collabs) (cfg : Option Nat) (ts : String) :
    ∀ (n : Nat) (ls : LoopState), ls.running = true → ls.agent.taskHistory = [] →
      (runIters C cfg ts monitorTask n ls).running = true
  | 0, _, hr, _ => hr
  | n + 1, ls, hr, hh => by
    have h := loopStep_monitor_invariant C cfg ts ls hr hh
    unfold runIters
    exact runIters_monitor C cfg ts n _ h.1 h.2

/-- Under the C5 safety hypotheses a single accumulation step adds
exactly 0.2 for a network-flagged change and nothing otherwise. -/
theorem impactStep_safe (a : ℚ) (c : JumpstarterChange)
    (h1 : "serviceAccount" ∉ c.impactAreas) (h2 : "security" ∉ c.impactAreas)
    (h3 : (c.description.getD "").length ≤ 200) :
    impactStep a c = a + (if c.impactAreas.contains "network" then (1 : ℚ)/5 else 0) := by
  have hb1 : c.impactAreas.contains "serviceAccount" = false := by
    rw [← Bool.not_eq_true, List.elem_iff]
    exact h1
  have hb2 : c.impactAreas.contains "security" = false := by
    rw [← Bool.not_eq_true, List.elem_iff]
    exact h2
  have hb3 : ¬200 < (c.description.getD "").length := by omega
  unfold impactStep
  rw [hb1, hb2]
  by_cases hn : c.impactAreas.contains "network" = true
  · have hmem : "network" ∈ c.impactAreas := List.elem_iff.mp hn
    simp [hn, hb3, hmem]
    norm_num
  · have hmem : "network" ∉ c.impactAreas := fun hm => hn (List.elem_iff.mpr hm)
    simp [hn, hb3, hmem]

/-- Folding the accumulation over a safe change set yields exactly 0.2
per network-flagged change. -/
theorem impact_foldl_safe (cs : List JumpstarterChange)
    (hsafe : ∀ c ∈ cs, "serviceAccount" ∉ c.impactAreas ∧
      "security" ∉ c.impactAreas ∧ (c.description.getD "").length ≤ 200) :
    ∀ a : ℚ, cs.foldl impactStep a =
      a + ((cs.filter fun c => c.impactAreas.contains "network").length : ℚ) / 5 := by
  induction cs with
  | nil => intro a; simp
  | cons c cs ih =>
    intro a
    have hc := hsafe c (by simp)
    have hrest : ∀ c ∈ cs, "serviceAccount" ∉ c.impactAreas ∧
        "security" ∉ c.impactAreas ∧ (c.description.getD "").length ≤ 200 :=
      fun q hq => hsafe q (List.mem_cons_of_mem _ hq)
    rw [List.foldl_cons, ih hrest, impactStep_safe a c hc.1 hc.2.1 hc.2.2]
    by_cases hn : c.impactAreas.contains "network" = true
    · have hmem : "network" ∈ c.impactAreas := List.elem_iff.mp hn
      simp [hn, hmem, List.filter_cons]
      ring
    · have hmem : "network" ∉ c.impactAreas := fun hm => hn (List.elem_iff.mpr hm)
      simp [hn, hmem, List.filter_cons]

/-- An always-failing task whose `_retries` counter starts at `r < max`
is executed `max - r` times in total and re-enqueued `max - r - 1`
times. -/
theorem drainFailing_single (max : Nat) (id : String) :
    ∀ (d r : Nat), max - r ≤ d → r < max →
      drainFailing max [(id, r)] = (max - r, max - r - 1)
  | 0, r, hd, hr => by omega
  | d + 1, r, hd, hr => by
    rcases Nat.lt_or_ge (r + 1) max with hlt | hge
    · have hrec := drainFailing_single max id d (r + 1) (by omega) hlt
      rw [drainFailing]
      rw [if_pos hlt]
      simp only [List.nil_append]
      rw [hrec]
      have h1 : max - (r + 1) + 1 = max - r := by omega
      have h2 : max - (r + 1) - 1 + 1 = max - r - 1 := by omega
      rw [h1, h2]
    · have h0 : drainFailing max ([] : List (String × Nat)) = (0, 0) := by
        rw [drainFailing]
      rw [drainFailing]
      rw [if_neg (by omega)]
      rw [h0]
      have h1 : max - r = 1 := by omega
      rw [h1]

/-! ### Claim theorems -/

/-- Claim C1 (code evaluation at the failing input): after four complete
`run` calls on the same `update-task` id, each of which failed at the
proposer, the agent holds four failure memories, yet the task history
for that id is still empty — `updateState` never calls
`addTaskHistory` — so the fifth Reason step returns the non-final
`propose-with-llm` decision instead of the terminal
human-intervention skip.  Had the four attempts been recorded in the
task history (last conjunct), the retry ceiling would have produced the
skip. -/
theorem retryCeiling_never_reached_after_failed_runs :
    stateAfterFourFailedRuns.memories.length = 4 ∧
    (stateAfterFourFailedRuns.memories.all fun m => !m.success) = true ∧
    getTaskHistory stateAfterFourFailedRuns "task-1" = [] ∧
    (reason stateAfterFourFailedRuns updTask).action = "propose-with-llm" ∧
    (reason stateAfterFourFailedRuns updTask).action ≠ "skip" ∧
    (reasonUpdateTask (List.replicate 4 failedAttemptMem) updTask).action = "skip" ∧
    (reasonUpdateTask (List.replicate 4 failedAttemptMem) updTask).reasoning =
      "Too many failed attempts, human intervention needed" := by
  refine ⟨by decide, by decide, by decide, by decide, by decide, rfl, rfl⟩

/-- Claim C2 (code evaluation at the failing input): on a
`monitor-changes` task the run loop never exits — after any number of
passes `running` is still set, because the `check-changes` decision is
never final, its execution result carries no error, and the task
history consulted by `isTaskComplete` is never written. -/
theorem run_loop_never_exits_on_monitor_changes :
    runLoopNeverExits failCollabs none "t0" monitorTask ⟨freshState, true⟩ := by
  intro n
  exact runIters_monitor failCollabs none "t0" n ⟨freshState, true⟩ rfl rfl

/-- Claim C10: every Update step rewrites the agent state to the same
task history and the same stats, changing only `memories`, which becomes
the appended list truncated to the most recent `maxMemories` records;
consequently a whole run (any number of loop passes) leaves the task
history and the stats untouched. -/
theorem update_state_frame :
    (∀ (cfg : Option Nat) (s : AgentState) (ts : String) (d : AgentDecision)
        (r : ExecResult),
      (updateState cfg s ts d r).taskHistory = s.taskHistory ∧
      (updateState cfg s ts d r).stats = s.stats ∧
      (updateState cfg s ts d r).memories =
        (s.memories ++ [mkMemory ts d r]).drop
          ((s.memories ++ [mkMemory ts d r]).length - resolveMaxMemories cfg)) ∧
    ∀ (C : Collabs) (cfg : Option Nat) (ts : String) (t : AgentTask) (n : Nat)
        (ls : LoopState),
      (runIters C cfg ts t n ls).agent.taskHistory = ls.agent.taskHistory ∧
      (runIters C cfg ts t n ls).agent.stats = ls.agent.stats := by
  constructor
  · intro cfg s ts d r
    exact ⟨rfl, rfl, addMemory_eq_drop cfg s.memories (mkMemory ts d r)⟩
  · intro C cfg ts t n ls
    exact runIters_frame C cfg ts t n ls

/-- Claim C3, counterexample: a change set with no long descriptions
(and a document present, below the retry ceiling) for which the Reason
step picks `propose-with-llm` with confidence 0.5 — not the claimed
`apply-rules-only` with confidence 0.5 — because no deterministic rule
changed anything. -/
theorem rules_only_path_counterexample :
    (simpleChange.description.getD "").length ≤ 100 ∧
    reasonUpdateTask [] updTask =
      ⟨"propose-with-llm", "Changes are complex, using LLM for sophisticated analysis",
        5/10, false⟩ ∧
    "propose-with-llm" ≠ "apply-rules-only" :=
  ⟨by decide, rfl, by decide⟩

/-- Claim C3, amended: below the retry ceiling with document and change
set present, Reason picks `apply-rules-only` exactly when some
deterministic rule changed something and no change has a description
longer than 100 characters; the decision confidence is 0.8 exactly
when some rule changed something (on either path) and 0.5 otherwise,
and the decision is never final. -/
theorem reason_update_task_path_and_confidence (prev : List AgentMemory)
    (t : AgentTask) (doc : TaskDoc) (changes : List JumpstarterChange)
    (hy : t.data.taskYaml = some doc) (hc : t.data.changes = some changes)
    (hceil : prev.length ≤ 3) :
    (reasonUpdateTask prev t).action =
      (if ((applyDeterministicRules doc changes).any fun r => r.changed) &&
          !(changes.any fun c => 100 < (c.description.getD "").length)
        then "apply-rules-only" else "propose-with-llm") ∧
    (reasonUpdateTask prev t).confidence =
      (if (applyDeterministicRules doc changes).any fun r => r.changed
        then (8 : ℚ)/10 else 5/10) ∧
    (reasonUpdateTask prev t).final = false := by
  simp only [reasonUpdateTask, hy, hc]
  rw [if_neg (by omega)]
  rcases hb1 : (applyDeterministicRules doc changes).any fun r => r.changed <;>
    rcases hb2 : changes.any fun c => 100 < (c.description.getD "").length <;>
      simp [hb1, hb2]

/-- Witness for the amended C3 theorem at a rule-triggering change. -/
theorem reason_update_task_path_and_confidence_witness :
    (reasonUpdateTask [] multusTask).action = "apply-rules-only" ∧
    (reasonUpdateTask [] multusTask).confidence = 8/10 := by
  have h := reason_update_task_path_and_confidence [] multusTask emptyDoc
    [multusChange] rfl rfl (by decide)
  exact ⟨h.1.trans rfl, h.2.1.trans rfl⟩

/-- Truthiness of an optional boolean is exactly `some true`. -/
theorem jsTruthyBool_eq_true (o : Option Bool) :
    jsTruthyBool o = true ↔ o = some true := by
  cases o with
  | none => simp [jsTruthyBool]
  | some b => cases b <;> simp [jsTruthyBool]

/-- Completion is reported exactly when the result of some history
record carries `success = true`. -/
theorem isTaskComplete_iff (s : AgentState) (id : String) :
    isTaskComplete s id = true ↔
      ∃ h ∈ getTaskHistory s id, h.result.success = some true := by
  unfold isTaskComplete
  rw [List.any_eq_true]
  constructor
  · rintro ⟨h, hm, hp⟩
    exact ⟨h, hm, (jsTruthyBool_eq_true _).mp hp⟩
  · rintro ⟨h, hm, hp⟩
    exact ⟨h, hm, (jsTruthyBool_eq_true _).mpr hp⟩

/-- Completion is monotone under `addTaskHistory` insertions. -/
theorem isTaskComplete_mono (s : AgentState) (id id2 : String) (m : AgentMemory)
    (h : isTaskComplete s id = true) :
    isTaskComplete (addTaskHistory s id2 m) id = true := by
  rcases (isTaskComplete_iff s id).mp h with ⟨r, hr, hp⟩
  apply (isTaskComplete_iff _ id).mpr
  by_cases hid : id2 = id
  · subst hid
    rw [getTaskHistory_add_self]
    exact ⟨r, List.mem_append_left _ hr, hp⟩
  · rw [getTaskHistory_add_of_ne s id2 id m fun he => hid he.symm]
    exact ⟨r, hr, hp⟩

/-- Inserting only records whose results are not successful never turns
an incomplete task complete. -/
theorem isTaskComplete_foldl_failing (id : String) :
    ∀ (ms : List (String × AgentMemory)) (s : AgentState),
      (∀ p ∈ ms, p.2.result.success ≠ some true) →
      isTaskComplete s id = false →
      isTaskComplete (ms.foldl (fun st p => addTaskHistory st p.1 p.2) s) id = false
  | [], s, _, hs => hs
  | p :: ps, s, hfail, hs => by
    rw [List.foldl_cons]
    apply isTaskComplete_foldl_failing id ps _
      fun q hq => hfail q (List.mem_cons_of_mem _ hq)
    rw [← Bool.not_eq_true]
    intro hc
    rcases (isTaskComplete_iff _ id).mp hc with ⟨r, hr, hp⟩
    by_cases hid : p.1 = id
    · subst hid
      rw [getTaskHistory_add_self] at hr
      rcases List.mem_append.mp hr with hr | hr
      · have : isTaskComplete s p.1 = true :=
          (isTaskComplete_iff s p.1).mpr ⟨r, hr, hp⟩
        rw [this] at hs
        cases hs
      · rcases List.mem_singleton.mp hr with rfl
        exact hfail p (by simp) hp
    · rw [getTaskHistory_add_of_ne s p.1 id p.2 fun he => hid he.symm] at hr
      have : isTaskComplete s id = true := (isTaskComplete_iff s id).mpr ⟨r, hr, hp⟩
      rw [this] at hs
      cases hs

/-- Claim C4, counterexample: a task-history record with record-level
`success == true` (a recorded skip) whose result carries no success
flag; the task is not reported complete, refuting the claimed "iff" on
record-level success. -/
theorem completion_ignores_record_success :
    getTaskHistory skipOnlyState "t1" = [skipMem] ∧
    skipMem.success = true ∧
    isTaskComplete skipOnlyState "t1" = false :=
  ⟨by decide, rfl, by decide⟩

/-- Claim C4, amended: a task is reported complete iff some record in
its task-history entry has a result whose `success` flag is `true` (the
record-level `success` flag is not consulted); completion is monotone
under `addTaskHistory` insertions, and inserting only records whose
results are not successful never marks a task complete. -/
theorem completion_via_result_success :
    (∀ (s : AgentState) (id : String),
      isTaskComplete s id = true ↔
        ∃ h ∈ getTaskHistory s id, h.result.success = some true) ∧
    (∀ (s : AgentState) (id id2 : String) (m : AgentMemory),
      isTaskComplete s id = true →
      isTaskComplete (addTaskHistory s id2 m) id = true) ∧
    ∀ (id : String) (ms : List (String × AgentMemory)) (s : AgentState),
      (∀ p ∈ ms, p.2.result.success ≠ some true) →
      isTaskComplete s id = false →
      isTaskComplete (ms.foldl (fun st p => addTaskHistory st p.1 p.2) s) id = false :=
  ⟨isTaskComplete_iff, isTaskComplete_mono, isTaskComplete_foldl_failing⟩

/-- Witness for the amended C4 theorem: monotonicity applied at a concrete
complete state and a concrete failing insertion. -/
theorem completion_via_result_success_witness :
    isTaskComplete (addTaskHistory completeState "t2" skipMem) "t1" = true :=
  completion_via_result_success.2.1 completeState "t1" "t2" skipMem (by decide)

/-- Claim C5, counterexample: two changes flagged only `network`, with
short descriptions and none of the security/serviceAccount/RBAC areas,
score 0.2 + 0.2 = 0.4, which is not below the claimed 0.3 bound. -/
theorem impact_score_two_network_changes :
    (∀ c ∈ [netChange1, netChange2],
      "serviceAccount" ∉ c.impactAreas ∧ "security" ∉ c.impactAreas ∧
      "rbac" ∉ c.impactAreas ∧ (c.description.getD "").length ≤ 200) ∧
    ¬calculateImpactScore (some [netChange1, netChange2]) "" < 3/10 := by
  constructor
  · decide
  · have h := impact_foldl_safe [netChange1, netChange2] (by decide) 0
    have hlen : (([netChange1, netChange2].filter
        fun c => c.impactAreas.contains "network").length) = 2 := by decide
    show ¬min (List.foldl impactStep 0 [netChange1, netChange2]) 1 < 3/10
    rw [h, hlen]
    norm_num [min_def]

/-- Claim C5, amended: for change sets with no
security/serviceAccount/RBAC-flagged areas, only short descriptions,
and at most one `network`-flagged change, the impact score is strictly
below 0.3 (each network change contributes 0.2, so a second one already
reaches 0.4). -/
theorem impact_score_low_without_flagged_areas (cs : List JumpstarterChange)
    (y : String)
    (hsafe : ∀ c ∈ cs, "serviceAccount" ∉ c.impactAreas ∧
      "security" ∉ c.impactAreas ∧ "rbac" ∉ c.impactAreas ∧
      (c.description.getD "").length ≤ 200)
    (hnet : (cs.filter fun c => c.impactAreas.contains "network").length ≤ 1) :
    calculateImpactScore (some cs) y < 3/10 := by
  have h := impact_foldl_safe cs
    (fun c hc => ⟨(hsafe c hc).1, (hsafe c hc).2.1, (hsafe c hc).2.2.2⟩) 0
  have hcast : ((cs.filter fun c => c.impactAreas.contains "network").length : ℚ) ≤ 1 := by
    exact_mod_cast hnet
  show min (cs.foldl impactStep 0) 1 < 3/10
  rw [h]
  have hmin := min_le_left
    (0 + ((cs.filter fun c => c.impactAreas.contains "network").length : ℚ) / 5) (1 : ℚ)
  linarith

/-- Witness for the amended C5 theorem at a single network change. -/
theorem impact_score_low_without_flagged_areas_witness :
    calculateImpactScore (some [netChange1]) "" < 3/10 :=
  impact_score_low_without_flagged_areas [netChange1] "" (by decide) (by decide)

/-- Claim C6: any error thrown by a collaborator inside the Execute
switch is caught and converted to `{error: message}` — the result
carries the error text, its `success` field is not `true`, and the
memory record subsequently built by `updateState` has `success = false`
(for any non-empty error text).  `execute` is a total function into
`ExecResult`: no exception propagates out of it. -/
theorem execute_converts_collaborator_errors (C : Collabs) (d : AgentDecision)
    (t : AgentTask) (ts m : String) (hthrow : executeExc C d t = .error m) :
    execute C d t = ExecResult.err m ∧
    (execute C d t).success ≠ some true ∧
    (m ≠ "" → (mkMemory ts d (execute C d t)).success = false) := by
  have he : execute C d t = ExecResult.err m := by
    unfold execute
    rw [hthrow]
  refine ⟨he, ?_, ?_⟩
  · rw [he]
    simp [ExecResult.err]
  · intro hm
    rw [he]
    have hne : m.isEmpty = false := by
      rw [← Bool.not_eq_true, String.isEmpty_iff]
      exact hm
    simp [mkMemory, jsTruthyStr, ExecResult.err, hne]

/-- Witness for C6 at a concrete throwing validator. -/
theorem execute_converts_collaborator_errors_witness :
    execute boomCollabs proposeDecision updTask = ExecResult.err "boom" ∧
    (mkMemory "t" proposeDecision
      (execute boomCollabs proposeDecision updTask)).success = false := by
  have h := execute_converts_collaborator_errors boomCollabs proposeDecision
    updTask "t" "boom" rfl
  exact ⟨h.1, h.2.2 (by decide)⟩

/-- Claim C7: after any sequence of `addMemory` calls starting from the
empty store, the memories list never exceeds the resolved cap, and it
is exactly the suffix of the most recent `maxMemories` inserted records
in their original relative order (for fewer insertions the dropped
prefix is empty and everything remains). -/
theorem add_memory_cap_fifo (cfg : Option Nat) (L : List AgentMemory) :
    (L.foldl (addMemory cfg) []).length ≤ resolveMaxMemories cfg ∧
    L.foldl (addMemory cfg) [] = L.drop (L.length - resolveMaxMemories cfg) := by
  have h := foldl_addMemory cfg L [] (by simp)
  simp only [List.nil_append, List.length_nil, Nat.zero_add] at h
  refine ⟨?_, h⟩
  rw [h, List.length_drop]
  omega

/-- Claim C8: saving and re-loading a state whose task-history keys are
pairwise distinct (as every state built through `addTaskHistory` is)
reproduces the state exactly: same memories, same stats, and the same
task-history lookup for every id. -/
theorem save_load_round_trip (s : AgentState)
    (hkeys : (s.taskHistory.map Prod.fst).Nodup) :
    loadState (saveState s) = s ∧
    (loadState (saveState s)).memories = s.memories ∧
    (loadState (saveState s)).stats = s.stats ∧
    ∀ id, getTaskHistory (loadState (saveState s)) id = getTaskHistory s id := by
  have h : loadState (saveState s) = s := by
    unfold loadState saveState
    rw [jsFromEntries_id _ hkeys, jsFromEntries_id _ hkeys]
  exact ⟨h, by rw [h], by rw [h], fun id => by rw [h]⟩

/-- Witness for C8 at a concrete two-entry state. -/
theorem save_load_round_trip_witness :
    loadState (saveState roundTripState) = roundTripState :=
  (save_load_round_trip roundTripState (by decide)).1

/-- Claim C9, counterexample: with the default `maxRetries = 3`, an
always-failing task is re-enqueued only twice — not the claimed three
times — because the re-enqueue condition is `retries < maxRetries`
with `retries` counting the executions performed so far. -/
theorem retry_reenqueue_count_default :
    resolveMaxRetries none = 3 ∧
    drainFailing (resolveMaxRetries none) [("t", 0)] = (3, 2) ∧
    (drainFailing (resolveMaxRetries none) [("t", 0)]).2 ≠ 3 := by
  have h := drainFailing_single 3 "t" 3 0 (by omega) (by omega)
  refine ⟨rfl, ?_, ?_⟩
  · show drainFailing 3 [("t", 0)] = (3, 2)
    rw [h]
  · show (drainFailing 3 [("t", 0)]).2 ≠ 3
    rw [h]
    decide

/-- Claim C9, amended: on an uncaught `executeTask` failure the
Orchestrator increments the retry counter and re-enqueues at the tail,
doing so up to `maxRetries - 1` times, so an always-failing task whose
counter starts at `r` is executed `maxRetries - r` times in total and
then dropped, never retried again. -/
theorem retry_executes_max_retries_times (max r : Nat) (id : String)
    (h : r < max) :
    drainFailing max [(id, r)] = (max - r, max - r - 1) :=
  drainFailing_single max id (max - r) r (Nat.le_refl _) h

/-- Witness for the amended C9 theorem at the default configuration. -/
theorem retry_executes_max_retries_times_witness :
    drainFailing 3 [("w", 0)] = (3, 2) := by
  have h := retry_executes_max_retries_times 3 0 "w" (by decide)
  rw [h]

end JmpAgent
